import Mathlib

/-!
# Shallow embedding of `ReactElementValidator.js`

This file embeds the DEV-mode element validator
(`src/packages/react/src/ReactElementValidator.js`) in Lean 4 and proves the
frozen claims about it.

Modelling conventions:
* JavaScript's mutable global slots (`ownerHasKeyUseWarning`,
  `currentlyValidatingElement`, `ReactCurrentOwner.current`, the mutable
  `_store.validated` flags of the elements, and the stream of emitted
  warnings) live in an explicit state record `VState` threaded through every
  function.
* Each element's mutable `_store` is identified by a numeric id; the state
  keeps the set of ids whose `validated` flag is `true` (all flags start
  `false` at construction, which is external to this core).
* External collaborators (`createElement`, `cloneElement`,
  `checkPropTypes`) are parameters.  `checkPropTypes` may mutate the state
  (re-entrancy) and may throw; a throw is `Except.error` carrying the state
  at the moment of the throw, which propagates exactly as a JS exception
  leaves the globals behind.
* The diagnostic sink `warning(false, ...)` appends a structured
  diagnostic (message kind plus its format arguments) to `VState.warnings`.
-/

/-- A `__source` record: file name and line number. -/
structure Source where
  fileName : String
  lineNumber : Nat
deriving DecidableEq, Repr

/-- The props bag as far as this validator inspects it: the ordered list of
own property keys (`Object.keys` order) and the optional `__source` entry. -/
structure Props where
  keys : List String
  source : Option Source
deriving DecidableEq, Repr

/-- An owner (the construct that was `ReactCurrentOwner.current` when the
element was created).  `id` models JavaScript reference identity; `name` is
what the external `getComponentName` collaborator reports (`none` = null). -/
structure Owner where
  id : Nat
  name : Option String
deriving DecidableEq, Repr

/-- The `ref` field of an element.  JavaScript distinguishes `null`,
`undefined` and an actual ref value; `validateFragmentProps` compares with
strict `!== null`. -/
inductive RefVal where
  | rnull
  | rundefined
  | rval (r : Nat)
deriving DecidableEq, Repr

/-- The `type` tag of an element, classified by the JavaScript `typeof`
shapes that `createElementWithValidation` distinguishes.  For a function
type we record `displayName`, `name`, whether a truthy `propTypes` object is
attached, and the `getDefaultProps` capability (`none` = absent,
`some b` = present with `isReactClassApproved` truthiness `b`). -/
inductive TypeTag where
  | str (s : String)
  | func (displayName : Option String) (fnName : Option String)
      (hasPropTypes : Bool) (getDefaultProps : Option Bool)
  | symbol (isFragment : Bool)
  | number
  | undef
  | jsnull
  | obj (numKeys : Nat)
  | boolean
deriving DecidableEq, Repr

/-- An element node (the fields of a React element that this validator
reads).  `storeId` is `none` when the element has no `_store`. -/
structure Element where
  typ : TypeTag
  key : Option String
  ref : RefVal
  props : Props
  storeId : Option Nat
  owner : Option Owner
  source : Option Source
deriving DecidableEq, Repr

/-- A `children` argument of unknown shape, as `validateChildKeys` sniffs
it: a non-object primitive, `null` (typeof object but falsy), a genuine
element, an array, or some other object.  An object carries
`some values` when it exposes a callable iterator function
(`Symbol.iterator` or `@@iterator`) yielding `values`, and `iterIsEntries`
records whether that function is the object's own `entries` function. -/
inductive Node where
  | prim
  | jsnull
  | elem (e : Element)
  | arr (elts : List Node)
  | obj (iter : Option (List Node)) (iterIsEntries : Bool)

/-- A diagnostic emitted through the `warning` sink, as message kind plus
the format arguments the source passes. -/
inductive Diag where
  | missingKey (context : String) (childOwner : String) (stack : String)
  | invalidFragProp (key : String) (stack : String)
  | invalidFragRef (stack : String)
  | invalidType (typeDesc : String) (info : String)
  | getDefaultPropsDeprecated
deriving DecidableEq, Repr

/-- The mutable global state of the validator. -/
structure VState where
  /-- `ownerHasKeyUseWarning`: the set of context strings already warned
  about, kept as a list of its keys. -/
  ownerHasKeyUseWarning : List String
  /-- `currentlyValidatingElement`. -/
  currentlyValidatingElement : Option Element
  /-- `ReactCurrentOwner.current` (read-only to this core). -/
  currentOwner : Option Owner
  /-- The store ids whose `_store.validated` flag is `true`. -/
  validatedIds : List Nat
  /-- The diagnostics emitted so far, in order. -/
  warnings : List Diag
  /-- `ReactDebugCurrentFrame.getStackAddendum()` (external, read-only). -/
  debugStack : String
deriving DecidableEq, Repr

/-- JavaScript string truthiness: a string is truthy iff non-empty;
`none` models `null`/`undefined`. -/
def strTruthy : Option String → Bool
  | some s => s ≠ ""
  | none => false

/-- `a || b` on nullable strings (empty string is falsy). -/
def jsOrStr (a b : Option String) : Option String :=
  if strTruthy a then a else b

/-- `fileName.replace(/^.*[\\\/]/, '')`: drop everything up to and
including the last slash or backslash. -/
def baseName (s : String) : String :=
  (s.toList.foldl
    (fun acc c => if c = '/' ∨ c = '\\' then [] else acc ++ [c]) []).asString

/-- The external `getComponentName` collaborator: reports the owner's name
or `null`. -/
def getComponentName (owner : Owner) : Option String :=
  owner.name

/-- Modelled from the spec: `describeComponentFrame` is an external
collaborator (`shared/describeComponentFrame`, not under `src/`).  Per
§4.2 the frame text is the display name, plus a source-location suffix if
present, plus the owner's display name if present. -/
def describeComponentFrame (name : String) (source : Option Source)
    (ownerName : Option String) : String :=
  "\n    in " ++ name ++
    (match source with
     | some src =>
         " (at " ++ baseName src.fileName ++ ":" ++
           toString src.lineNumber ++ ")"
     | none =>
         match ownerName with
         | some ow => " (created by " ++ ow ++ ")"
         | none => "")

/-- `getDisplayName(element)` for a genuine element (the `#empty`/`#text`
branches concern null/primitive arguments, which never reach it here
because `currentlyValidatingElement` only ever holds elements). -/
def getDisplayName (element : Element) : String :=
  match element.typ with
  | .str s => s
  | .symbol true => "React.Fragment"
  | .func dn n _ _ =>
      if strTruthy dn then dn.getD "" else if strTruthy n then n.getD "" else "Unknown"
  | _ => "Unknown"

/-- `getStackAddendum()`: describe `currentlyValidatingElement` if set,
then append the ambient debug-frame stack text. -/
def getStackAddendum (s : VState) : String :=
  (match s.currentlyValidatingElement with
   | some el =>
       describeComponentFrame (getDisplayName el) el.source
         (el.owner.bind getComponentName)
   | none => "") ++ s.debugStack

/-- `getDeclarationErrorAddendum()`: names the render method of
`ReactCurrentOwner.current` when it has a truthy name. -/
def getDeclarationErrorAddendum (s : VState) : String :=
  match s.currentOwner with
  | some ow =>
      match getComponentName ow with
      | some n =>
          if n = "" then ""
          else "\n\nCheck the render method of `" ++ n ++ "`."
      | none => ""
  | none => ""

/-- `getSourceInfoErrorAddendum(elementProps)`. -/
def getSourceInfoErrorAddendum : Option Props → String
  | some props =>
      match props.source with
      | some src =>
          "\n\nCheck your code at " ++ baseName src.fileName ++ ":" ++
            toString src.lineNumber ++ "."
      | none => ""
  | none => ""

/-- `getCurrentComponentErrorInfo(parentType)`: the declaration addendum,
or failing that a top-level-render hint derived from the parent type's
name. -/
def getCurrentComponentErrorInfo (parentType : TypeTag) (s : VState) : String :=
  let info := getDeclarationErrorAddendum s
  if info ≠ "" then info
  else
    let parentName : Option String :=
      match parentType with
      | .str t => some t
      | .func dn n _ _ => jsOrStr dn n
      | _ => none
    if strTruthy parentName then
      "\n\nCheck the top-level render call using <" ++ parentName.getD "" ++ ">."
    else ""

/-- `element._store.validated` as read from the state. -/
def storeValidated (s : VState) (e : Element) : Bool :=
  match e.storeId with
  | some i => i ∈ s.validatedIds
  | none => false

/-- `validateExplicitKey(element, parentType)`. -/
def validateExplicitKey (element : Element) (parentType : TypeTag)
    (s : VState) : VState :=
  match element.storeId with
  | none => s
  | some sid =>
      if sid ∈ s.validatedIds ∨ element.key ≠ none then s
      else
        let s1 := { s with validatedIds := sid :: s.validatedIds }
        let currentComponentErrorInfo := getCurrentComponentErrorInfo parentType s1
        if currentComponentErrorInfo ∈ s1.ownerHasKeyUseWarning then s1
        else
          let s2 := { s1 with
            ownerHasKeyUseWarning :=
              currentComponentErrorInfo :: s1.ownerHasKeyUseWarning }
          let childOwner :=
            match element.owner with
            | some ow =>
                if some ow ≠ s2.currentOwner then
                  " It was passed a child from " ++
                    ((getComponentName ow).getD "null") ++ "."
                else ""
            | none => ""
          let s3 := { s2 with currentlyValidatingElement := some element }
          let s4 := { s3 with
            warnings := s3.warnings ++
              [Diag.missingKey currentComponentErrorInfo childOwner
                (getStackAddendum s3)] }
          { s4 with currentlyValidatingElement := none }

/-- The iteration shared by the array `for`-loop and the iterator
`while`-loop of `validateChildKeys`: visit each produced value in order and
run `validateExplicitKey` on those that are genuine elements
(`isValidElement`). -/
def validateKeysOver (values : List Node) (parentType : TypeTag)
    (s : VState) : VState :=
  match values with
  | [] => s
  | v :: rest =>
      validateKeysOver rest parentType
        (match v with
         | .elem e => validateExplicitKey e parentType s
         | _ => s)

/-- `validateChildKeys(node, parentType)`. -/
def validateChildKeys (node : Node) (parentType : TypeTag) (s : VState) :
    VState :=
  match node with
  | .prim => s
  | .jsnull => s
  | .arr elts => validateKeysOver elts parentType s
  | .elem e =>
      match e.storeId with
      | some sid => { s with validatedIds := sid :: s.validatedIds }
      | none => s
  | .obj iter iterIsEntries =>
      match iter with
      | some values =>
          if iterIsEntries then s
          else validateKeysOver values parentType s
      | none => s

/-- The scan of `Object.keys(fragment.props)` in `validateFragmentProps`:
`for (const key of keys) if (!VALID_FRAGMENT_PROPS.has(key)) break` —
returns the first key outside the allow-list, if any.
`VALID_FRAGMENT_PROPS = {children, key}`. -/
def firstInvalidFragmentProp : List String → Option String
  | [] => none
  | k :: ks =>
      if k = "children" ∨ k = "key" then firstInvalidFragmentProp ks
      else some k

/-- `validateFragmentProps(fragment)`. -/
def validateFragmentProps (fragment : Element) (s : VState) : VState :=
  let s0 := { s with currentlyValidatingElement := some fragment }
  let s1 :=
    match firstInvalidFragmentProp fragment.props.keys with
    | some k =>
        { s0 with warnings := s0.warnings ++
            [Diag.invalidFragProp k (getStackAddendum s0)] }
    | none => s0
  let s2 :=
    if fragment.ref ≠ RefVal.rnull then
      { s1 with warnings := s1.warnings ++
          [Diag.invalidFragRef (getStackAddendum s1)] }
    else s1
  { s2 with currentlyValidatingElement := none }

/-- The external `checkPropTypes` collaborator: an arbitrary state
transformer that may itself construct elements re-entrantly (mutating the
state) and may throw (`Except.error`, carrying the state at the throw). -/
def Collab : Type :=
  VState → Except VState VState

/-- `validatePropTypes(element)`, parameterised by the external
`checkPropTypes` collaborator. -/
def validatePropTypes (check : Collab) (element : Element) (s : VState) :
    Except VState VState :=
  match element.typ with
  | .func _ _ hasPropTypes gdp =>
      let afterPropTypes : Except VState VState :=
        if hasPropTypes then
          match check { s with currentlyValidatingElement := some element } with
          | .ok s' => .ok { s' with currentlyValidatingElement := none }
          | .error s' => .error s'
        else .ok s
      match afterPropTypes with
      | .error s' => .error s'
      | .ok s2 =>
          match gdp with
          | some approved =>
              .ok (if approved then s2
                   else { s2 with warnings := s2.warnings ++
                       [Diag.getDefaultPropsDeprecated] })
          | none => .ok s2
  | _ => .ok s

/-- `typeof type` rendered as the `%s` argument of the invalid-type
warning (`type == null ? type : typeof type`). -/
def jsTypeDesc : TypeTag → String
  | .str _ => "string"
  | .func _ _ _ _ => "function"
  | .symbol _ => "symbol"
  | .number => "number"
  | .undef => "undefined"
  | .jsnull => "null"
  | .obj _ => "object"
  | .boolean => "boolean"

/-- The `validType` test of `createElementWithValidation`:
string, function, symbol or number. -/
def validTypeTag : TypeTag → Bool
  | .str _ => true
  | .func _ _ _ _ => true
  | .symbol _ => true
  | .number => true
  | _ => false

/-- The missing-export remediation hint. -/
def missingExportHint : String :=
  " You likely forgot to export your component from the file " ++
    "it's defined in."

/-- The part of the invalid-type `info` string after the optional
missing-export hint: the source-location hint if available, else the
declaring-construct hint, then the stack addendum. -/
def invalidTypeInfoTail (props : Option Props) (s : VState) : String :=
  let sourceInfo := getSourceInfoErrorAddendum props
  (if sourceInfo ≠ "" then sourceInfo else getDeclarationErrorAddendum s) ++
    getStackAddendum s

/-- The `info` argument of the invalid-type warning: the missing-export
hint when `type` is `undefined` or an empty plain object, then the tail. -/
def invalidTypeInfo (type : TypeTag) (props : Option Props) (s : VState) :
    String :=
  (match type with
   | .undef => missingExportHint
   | .obj 0 => missingExportHint
   | _ => "") ++ invalidTypeInfoTail props s

/-- The external `createElement` primitive: pure in the state, may return
`null` (`none`). -/
def CreateEl : Type :=
  TypeTag → Option Props → List Node → Option Element

/-- The `for (var i = 2; i < arguments.length; i++)` loop of both facades:
run `validateChildKeys` on every children argument in order. -/
def validateAllChildKeys (children : List Node) (type : TypeTag)
    (s : VState) : VState :=
  match children with
  | [] => s
  | c :: rest => validateAllChildKeys rest type (validateChildKeys c type s)

/-- `createElementWithValidation(type, props, ...children)`. -/
def createElementWithValidation (check : Collab) (createEl : CreateEl)
    (type : TypeTag) (props : Option Props) (children : List Node)
    (s : VState) : Except VState (Option Element × VState) :=
  let validType := validTypeTag type
  let s1 :=
    if validType then s
    else
      { s with warnings := s.warnings ++
          [Diag.invalidType (jsTypeDesc type) (invalidTypeInfo type props s)] }
  match createEl type props children with
  | none => .ok (none, s1)
  | some element =>
      let s2 :=
        if validType then validateAllChildKeys children type s1 else s1
      if type = TypeTag.symbol true then
        .ok (some element, validateFragmentProps element s2)
      else
        match validatePropTypes check element s2 with
        | .ok s3 => .ok (some element, s3)
        | .error s3 => .error s3

/-- The external `cloneElement` primitive: pure in the state. -/
def CloneEl : Type :=
  Element → Option Props → List Node → Element

/-- `cloneElementWithValidation(element, props, ...children)`. -/
def cloneElementWithValidation (check : Collab) (cloneEl : CloneEl)
    (element : Element) (props : Option Props) (children : List Node)
    (s : VState) : Except VState (Element × VState) :=
  let newElement := cloneEl element props children
  let s1 := validateAllChildKeys children newElement.typ s
  match validatePropTypes check newElement s1 with
  | .ok s2 => .ok (newElement, s2)
  | .error s2 => .error s2

/-- Recognize a missing-key diagnostic. -/
def isMissingKeyD : Diag → Bool
  | .missingKey _ _ _ => true
  | _ => false

/-- Recognize an invalid-type diagnostic. -/
def isInvalidTypeD : Diag → Bool
  | .invalidType _ _ => true
  | _ => false

/-- Recognize a fragment invalid-prop diagnostic. -/
def isFragPropD : Diag → Bool
  | .invalidFragProp _ _ => true
  | _ => false

/-- Recognize a fragment invalid-ref diagnostic. -/
def isFragRefD : Diag → Bool
  | .invalidFragRef _ => true
  | _ => false

/-- Count the missing-key diagnostics in a warning stream. -/
def countMissingKey (ws : List Diag) : Nat :=
  (ws.filter isMissingKeyD).length

/-- Count the invalid-type diagnostics in a warning stream. -/
def countInvalidType (ws : List Diag) : Nat :=
  (ws.filter isInvalidTypeD).length

/-- Count the fragment invalid-prop diagnostics in a warning stream. -/
def countFragProp (ws : List Diag) : Nat :=
  (ws.filter isFragPropD).length

/-- Count the fragment invalid-ref diagnostics in a warning stream. -/
def countFragRef (ws : List Diag) : Nat :=
  (ws.filter isFragRefD).length

/-- Run a sequence of `validateExplicitKey` calls. -/
def runKeyCalls (calls : List (Element × TypeTag)) (s : VState) : VState :=
  calls.foldl (fun st c => validateExplicitKey c.1 c.2 st) s


/-! ## Supporting lemmas -/

/-- The `childOwner` clause computed inside the emission branch of
`validateExplicitKey` (helper for stating the case analysis). -/
def childOwnerText (e : Element) (s : VState) : String :=
  match e.owner with
  | some ow =>
      if some ow ≠ s.currentOwner then
        " It was passed a child from " ++ (getComponentName ow).getD "null" ++ "."
      else ""
  | none => ""

/-- Project the element out of a node, when the node is a genuine element
(`isValidElement`). -/
def elemOf : Node → Option Element
  | .elem e => some e
  | _ => none

/-- The state after the facade's invalid-type check (proof helper naming
the facade's internal `s1`). -/
def invalidTypeState (type : TypeTag) (props : Option Props) (s : VState) :
    VState :=
  if validTypeTag type then s
  else
    { s with warnings := s.warnings ++
        [Diag.invalidType (jsTypeDesc type) (invalidTypeInfo type props s)] }

/-- The state after the facade's key-validation step (proof helper naming
the facade's internal `s2`). -/
def childKeysState (type : TypeTag) (props : Option Props)
    (children : List Node) (s : VState) : VState :=
  if validTypeTag type then
    validateAllChildKeys children type (invalidTypeState type props s)
  else invalidTypeState type props s

/-- Empty initial state for the concrete witnesses: nothing recorded,
no ambient owner, empty debug stack. -/
def sEmpty : VState :=
  { ownerHasKeyUseWarning := [], currentlyValidatingElement := none,
    currentOwner := none, validatedIds := [], warnings := [],
    debugStack := "" }

/-- A component-typed element with an attached `propTypes` schema. -/
def eC2 : Element :=
  { typ := TypeTag.func (some "MyComponent") none true none, key := none,
    ref := RefVal.rnull, props := { keys := [], source := none },
    storeId := none, owner := none, source := none }

/-- A schema-checking collaborator that raises immediately. -/
def throwingCheck : Collab := fun st => .error st

/-- A schema-checking collaborator that returns without touching the
state. -/
def okCheck : Collab := fun st => .ok st

/-- A keyless `div` element whose store has id 5. -/
def eW : Element :=
  { typ := TypeTag.str "div", key := none, ref := RefVal.rnull,
    props := { keys := [], source := none }, storeId := some 5,
    owner := none, source := none }

/-- The same element with an explicit key. -/
def eK : Element := { eW with key := some "k0" }

/-- A state that already recorded the diagnostic context of a `div`
parent. -/
def sW1 : VState :=
  { sEmpty with ownerHasKeyUseWarning :=
      [getCurrentComponentErrorInfo (TypeTag.str "div") sEmpty] }

/-- A state with store id 3 already validated. -/
def sV3 : VState := { sEmpty with validatedIds := [3] }

/-- A fragment element with a disallowed prop `title` and an undefined
ref. -/
def fW : Element :=
  { typ := TypeTag.symbol true, key := none, ref := RefVal.rundefined,
    props := { keys := ["children", "title"], source := none },
    storeId := none, owner := none, source := none }

/-- A construction primitive that returns a fixed element. -/
def createElW : CreateEl := fun _ _ _ => some eW

/-- An element whose type carries an unapproved `getDefaultProps`. -/
def eGDP : Element :=
  { typ := TypeTag.func none none false (some false), key := none,
    ref := RefVal.rnull, props := { keys := [], source := none },
    storeId := none, owner := none, source := none }

/-- A clone primitive that returns a fixed element. -/
def cloneElW : CloneEl := fun _ _ _ => eGDP

/-- The state after the invalid-type run of the C8 witness. -/
def s8' : VState :=
  { sEmpty with warnings :=
      [Diag.invalidType (jsTypeDesc (TypeTag.obj 0))
        (invalidTypeInfo (TypeTag.obj 0) none sEmpty)] }

/-- The state after the valid-type run of the C8 witness. -/
def s8v : VState := { sEmpty with validatedIds := [5] }

/-- The state after the clone run of the C9 witness. -/
def s9' : VState :=
  { sEmpty with
      validatedIds := [5]
      warnings := [Diag.getDefaultPropsDeprecated] }

/-! ## Lemmas and claim theorems -/

/-- A filter over diagnostics it rejects is empty. -/
theorem filter_eq_nil_of_none (p : Diag → Bool) (t : List Diag)
    (h : ∀ d ∈ t, p d = false) : t.filter p = [] := by
  induction t with
  | nil => rfl
  | cons d rest ih =>
      rw [List.filter_cons, if_neg (by simp [h d (List.mem_cons_self d rest)])]
      exact ih (fun x hx => h x (List.mem_cons_of_mem d hx))

/-- Appending diagnostics that a predicate rejects does not change the
filtered length. -/
theorem filter_length_append_none (p : Diag → Bool) (w t : List Diag)
    (h : ∀ d ∈ t, p d = false) :
    ((w ++ t).filter p).length = (w.filter p).length := by
  rw [List.filter_append, filter_eq_nil_of_none p t h, List.append_nil]

/-- Complete case analysis of one `validateExplicitKey` call: it is a
no-op, a dedup hit (marks the store, emits nothing), or an emission (marks
the store, records the context, appends one missing-key diagnostic, and
leaves `currentlyValidatingElement` cleared). -/
theorem validateExplicitKey_spec (e : Element) (pt : TypeTag) (s : VState) :
    ((e.storeId = none ∨ storeValidated s e = true ∨ e.key ≠ none) ∧
      validateExplicitKey e pt s = s) ∨
    (∃ sid, e.storeId = some sid ∧ sid ∉ s.validatedIds ∧ e.key = none ∧
      getCurrentComponentErrorInfo pt s ∈ s.ownerHasKeyUseWarning ∧
      validateExplicitKey e pt s = { s with validatedIds := sid :: s.validatedIds }) ∨
    (∃ sid o st, e.storeId = some sid ∧ sid ∉ s.validatedIds ∧ e.key = none ∧
      getCurrentComponentErrorInfo pt s ∉ s.ownerHasKeyUseWarning ∧
      validateExplicitKey e pt s =
        { s with
            validatedIds := sid :: s.validatedIds,
            ownerHasKeyUseWarning :=
              getCurrentComponentErrorInfo pt s :: s.ownerHasKeyUseWarning,
            warnings := s.warnings ++
              [Diag.missingKey (getCurrentComponentErrorInfo pt s) o st],
            currentlyValidatingElement := none }) := by
  rcases hst : e.storeId with _ | sid
  · left
    refine ⟨Or.inl rfl, ?_⟩
    unfold validateExplicitKey
    rw [hst]
  · by_cases hv : sid ∈ s.validatedIds ∨ e.key ≠ none
    · left
      constructor
      · rcases hv with hv | hv
        · right; left; simp [storeValidated, hst, hv]
        · right; right; exact hv
      · unfold validateExplicitKey
        rw [hst]
        exact if_pos hv
    · have hv1 : sid ∉ s.validatedIds := fun h => hv (Or.inl h)
      have hv2 : e.key = none := by
        by_contra hk; exact hv (Or.inr hk)
      by_cases hd : getCurrentComponentErrorInfo pt s ∈ s.ownerHasKeyUseWarning
      · right; left
        refine ⟨sid, rfl, hv1, hv2, hd, ?_⟩
        unfold validateExplicitKey
        rw [hst]
        exact (if_neg hv).trans (if_pos hd)
      · right; right
        refine ⟨sid, childOwnerText e s,
          getStackAddendum { s with currentlyValidatingElement := some e },
          rfl, hv1, hv2, hd, ?_⟩
        unfold validateExplicitKey
        rw [hst]
        exact (if_neg hv).trans ((if_neg hd).trans rfl)

/-- C3's content as a reusable lemma: the three no-op conditions make
`validateExplicitKey` the identity. -/
theorem validateExplicitKey_noop (e : Element) (pt : TypeTag) (s : VState)
    (h : e.storeId = none ∨ storeValidated s e = true ∨ e.key ≠ none) :
    validateExplicitKey e pt s = s := by
  rcases validateExplicitKey_spec e pt s with ⟨_, hres⟩ |
      ⟨sid, hst, hv1, hv2, _, _⟩ | ⟨sid, o, st, hst, hv1, hv2, _, _⟩
  · exact hres
  all_goals {
    exfalso
    rcases h with h | h | h
    · rw [h] at hst; cases hst
    · rw [storeValidated, hst] at h; simp at h; exact hv1 h
    · exact h hv2 }

/-- `validateExplicitKey` either leaves the warning stream unchanged or
appends exactly one missing-key diagnostic. -/
theorem validateExplicitKey_warnings_shape (e : Element) (pt : TypeTag)
    (s : VState) :
    (validateExplicitKey e pt s).warnings = s.warnings ∨
    ∃ c o st, (validateExplicitKey e pt s).warnings
      = s.warnings ++ [Diag.missingKey c o st] := by
  rcases validateExplicitKey_spec e pt s with ⟨_, hres⟩ |
      ⟨sid, _, _, _, _, hres⟩ | ⟨sid, o, st, _, _, _, _, hres⟩ <;> rw [hres]
  · exact Or.inl rfl
  · exact Or.inl rfl
  · exact Or.inr ⟨_, o, st, rfl⟩

/-- `validateExplicitKey` never deletes a warning. -/
theorem validateExplicitKey_warnings_mem (e : Element) (pt : TypeTag)
    (s : VState) (d : Diag) (h : d ∈ s.warnings) :
    d ∈ (validateExplicitKey e pt s).warnings := by
  rcases validateExplicitKey_warnings_shape e pt s with h1 | ⟨c, o, st, h1⟩ <;>
    rw [h1]
  · exact h
  · exact List.mem_append_left _ h

/-- `validateExplicitKey` preserves the count of every diagnostic kind
other than missing-key. -/
theorem validateExplicitKey_count_other (p : Diag → Bool)
    (hp : ∀ c o st, p (Diag.missingKey c o st) = false)
    (e : Element) (pt : TypeTag) (s : VState) :
    ((validateExplicitKey e pt s).warnings.filter p).length
      = (s.warnings.filter p).length := by
  rcases validateExplicitKey_warnings_shape e pt s with h1 | ⟨c, o, st, h1⟩ <;>
    rw [h1]
  exact filter_length_append_none p _ _ (by simp [hp])

/-- `validateExplicitKey` preserves every already-set `validated` flag. -/
theorem validateExplicitKey_validated_mono (e : Element) (pt : TypeTag)
    (s : VState) (i : Nat) (h : i ∈ s.validatedIds) :
    i ∈ (validateExplicitKey e pt s).validatedIds := by
  rcases validateExplicitKey_spec e pt s with ⟨_, hres⟩ |
      ⟨sid, _, _, _, _, hres⟩ | ⟨sid, o, st, _, _, _, _, hres⟩ <;> rw [hres]
  · exact h
  · exact List.mem_cons_of_mem _ h
  · exact List.mem_cons_of_mem _ h

/-- When the no-op conditions all fail, `validateExplicitKey` marks the
element's store — whether or not a diagnostic is then emitted. -/
theorem validateExplicitKey_marks (e : Element) (pt : TypeTag) (s : VState)
    (sid : Nat) (hst : e.storeId = some sid) (hv : sid ∉ s.validatedIds)
    (hk : e.key = none) :
    sid ∈ (validateExplicitKey e pt s).validatedIds := by
  rcases validateExplicitKey_spec e pt s with ⟨hc, hres⟩ |
      ⟨sid', hst', _, _, _, hres⟩ | ⟨sid', o, st, hst', _, _, _, hres⟩
  · exfalso
    rcases hc with hc | hc | hc
    · rw [hst] at hc; cases hc
    · rw [storeValidated, hst] at hc; simp at hc; exact hv hc
    · exact hc hk
  · rw [hres]
    rw [hst] at hst'
    cases hst'
    exact List.mem_cons_self _ _
  · rw [hres]
    rw [hst] at hst'
    cases hst'
    exact List.mem_cons_self _ _

/-- A dedup hit: when the computed context string is already recorded, no
diagnostic is emitted. -/
theorem validateExplicitKey_dedup_hit (e : Element) (pt : TypeTag)
    (s : VState) (h : getCurrentComponentErrorInfo pt s ∈ s.ownerHasKeyUseWarning) :
    (validateExplicitKey e pt s).warnings = s.warnings := by
  rcases validateExplicitKey_spec e pt s with ⟨_, hres⟩ |
      ⟨sid, _, _, _, _, hres⟩ | ⟨sid, o, st, _, _, _, hd, hres⟩ <;> rw [hres]
  exact absurd h hd

/-- One `validateExplicitKey` call keeps the balance between the number of
missing-key diagnostics emitted and the number of recorded context
strings, and keeps the record duplicate-free. -/
theorem validateExplicitKey_balance (e : Element) (pt : TypeTag) (s : VState)
    (h : countMissingKey s.warnings = s.ownerHasKeyUseWarning.length)
    (hn : s.ownerHasKeyUseWarning.Nodup) :
    countMissingKey (validateExplicitKey e pt s).warnings
        = (validateExplicitKey e pt s).ownerHasKeyUseWarning.length ∧
      (validateExplicitKey e pt s).ownerHasKeyUseWarning.Nodup := by
  rcases validateExplicitKey_spec e pt s with ⟨_, hres⟩ |
      ⟨sid, _, _, _, _, hres⟩ | ⟨sid, o, st, _, _, _, hd, hres⟩ <;> rw [hres]
  · exact ⟨h, hn⟩
  · exact ⟨h, hn⟩
  · constructor
    · show countMissingKey (s.warnings ++ [_]) = _
      rw [countMissingKey, List.filter_append]
      simp [isMissingKeyD, countMissingKey] at h ⊢
      omega
    · exact List.nodup_cons.mpr ⟨hd, hn⟩

/-- `runKeyCalls` peels one call. -/
theorem runKeyCalls_cons (c : Element × TypeTag)
    (rest : List (Element × TypeTag)) (s : VState) :
    runKeyCalls (c :: rest) s = runKeyCalls rest (validateExplicitKey c.1 c.2 s) := by
  rfl

/-- Any sequence of `validateExplicitKey` calls keeps the diagnostic count
equal to the number of distinct recorded contexts. -/
theorem runKeyCalls_balance (calls : List (Element × TypeTag)) :
    ∀ s : VState,
      countMissingKey s.warnings = s.ownerHasKeyUseWarning.length →
      s.ownerHasKeyUseWarning.Nodup →
      countMissingKey (runKeyCalls calls s).warnings
          = (runKeyCalls calls s).ownerHasKeyUseWarning.length ∧
        (runKeyCalls calls s).ownerHasKeyUseWarning.Nodup := by
  induction calls with
  | nil => exact fun s h hn => ⟨h, hn⟩
  | cons c rest ih =>
      intro s h hn
      rw [runKeyCalls_cons]
      have hb := validateExplicitKey_balance c.1 c.2 s h hn
      exact ih _ hb.1 hb.2

/-- `validateKeysOver` preserves already-set `validated` flags. -/
theorem validateKeysOver_validated_mono (values : List Node) (pt : TypeTag) :
    ∀ (s : VState) (i : Nat), i ∈ s.validatedIds →
      i ∈ (validateKeysOver values pt s).validatedIds := by
  induction values with
  | nil => exact fun s i h => h
  | cons v rest ih =>
      intro s i h
      cases v with
      | prim => exact ih s i h
      | jsnull => exact ih s i h
      | arr l => exact ih s i h
      | obj it b => exact ih s i h
      | elem e => exact ih _ i (validateExplicitKey_validated_mono e pt s i h)

/-- `validateKeysOver` never deletes a warning. -/
theorem validateKeysOver_warnings_mem (values : List Node) (pt : TypeTag) :
    ∀ (s : VState) (d : Diag), d ∈ s.warnings →
      d ∈ (validateKeysOver values pt s).warnings := by
  induction values with
  | nil => exact fun s d h => h
  | cons v rest ih =>
      intro s d h
      cases v with
      | prim => exact ih s d h
      | jsnull => exact ih s d h
      | arr l => exact ih s d h
      | obj it b => exact ih s d h
      | elem e => exact ih _ d (validateExplicitKey_warnings_mem e pt s d h)

/-- `validateKeysOver` preserves the count of every diagnostic kind other
than missing-key. -/
theorem validateKeysOver_count_other (p : Diag → Bool)
    (hp : ∀ c o st, p (Diag.missingKey c o st) = false)
    (values : List Node) (pt : TypeTag) :
    ∀ s : VState,
      ((validateKeysOver values pt s).warnings.filter p).length
        = (s.warnings.filter p).length := by
  induction values with
  | nil => exact fun s => rfl
  | cons v rest ih =>
      intro s
      cases v with
      | prim => exact ih s
      | jsnull => exact ih s
      | arr l => exact ih s
      | obj it b => exact ih s
      | elem e =>
          exact (ih _).trans (validateExplicitKey_count_other p hp e pt s)

/-- `validateChildKeys` preserves already-set `validated` flags. -/
theorem validateChildKeys_validated_mono (node : Node) (pt : TypeTag)
    (s : VState) (i : Nat) (h : i ∈ s.validatedIds) :
    i ∈ (validateChildKeys node pt s).validatedIds := by
  cases node with
  | prim => exact h
  | jsnull => exact h
  | arr elts => exact validateKeysOver_validated_mono elts pt s i h
  | elem e =>
      rcases hst : e.storeId with _ | sid
      · simp only [validateChildKeys]
        rw [hst]
        exact h
      · simp only [validateChildKeys]
        rw [hst]
        exact List.mem_cons_of_mem _ h
  | obj iter b =>
      cases iter with
      | some values =>
          cases b with
          | true => exact h
          | false => exact validateKeysOver_validated_mono values pt s i h
      | none => exact h

/-- `validateChildKeys` never deletes a warning. -/
theorem validateChildKeys_warnings_mem (node : Node) (pt : TypeTag)
    (s : VState) (d : Diag) (h : d ∈ s.warnings) :
    d ∈ (validateChildKeys node pt s).warnings := by
  cases node with
  | prim => exact h
  | jsnull => exact h
  | arr elts => exact validateKeysOver_warnings_mem elts pt s d h
  | elem e =>
      rcases hst : e.storeId with _ | sid
      · simp only [validateChildKeys]
        rw [hst]
        exact h
      · simp only [validateChildKeys]
        rw [hst]
        exact h
  | obj iter b =>
      cases iter with
      | some values =>
          cases b with
          | true => exact h
          | false => exact validateKeysOver_warnings_mem values pt s d h
      | none => exact h

/-- `validateChildKeys` preserves the count of every diagnostic kind other
than missing-key. -/
theorem validateChildKeys_count_other (p : Diag → Bool)
    (hp : ∀ c o st, p (Diag.missingKey c o st) = false)
    (node : Node) (pt : TypeTag) (s : VState) :
    ((validateChildKeys node pt s).warnings.filter p).length
      = (s.warnings.filter p).length := by
  cases node with
  | prim => rfl
  | jsnull => rfl
  | arr elts => exact validateKeysOver_count_other p hp elts pt s
  | elem e =>
      rcases hst : e.storeId with _ | sid
      · simp only [validateChildKeys]
        rw [hst]
      · simp only [validateChildKeys]
        rw [hst]
  | obj iter b =>
      cases iter with
      | some values =>
          cases b with
          | true => rfl
          | false => exact validateKeysOver_count_other p hp values pt s
      | none => rfl

/-- `validateAllChildKeys` preserves already-set `validated` flags. -/
theorem validateAllChildKeys_validated_mono (children : List Node)
    (ty : TypeTag) :
    ∀ (s : VState) (i : Nat), i ∈ s.validatedIds →
      i ∈ (validateAllChildKeys children ty s).validatedIds := by
  induction children with
  | nil => exact fun s i h => h
  | cons c rest ih =>
      exact fun s i h => ih _ i (validateChildKeys_validated_mono c ty s i h)

/-- `validateAllChildKeys` never deletes a warning. -/
theorem validateAllChildKeys_warnings_mem (children : List Node)
    (ty : TypeTag) :
    ∀ (s : VState) (d : Diag), d ∈ s.warnings →
      d ∈ (validateAllChildKeys children ty s).warnings := by
  induction children with
  | nil => exact fun s d h => h
  | cons c rest ih =>
      exact fun s d h => ih _ d (validateChildKeys_warnings_mem c ty s d h)

/-- `validateAllChildKeys` preserves the count of every diagnostic kind
other than missing-key. -/
theorem validateAllChildKeys_count_other (p : Diag → Bool)
    (hp : ∀ c o st, p (Diag.missingKey c o st) = false)
    (children : List Node) (ty : TypeTag) :
    ∀ s : VState,
      ((validateAllChildKeys children ty s).warnings.filter p).length
        = (s.warnings.filter p).length := by
  induction children with
  | nil => exact fun s => rfl
  | cons c rest ih =>
      exact fun s => (ih _).trans (validateChildKeys_count_other p hp c ty s)

/-- The single-element branch of `validateChildKeys` marks the store
unconditionally. -/
theorem validateChildKeys_elem_marks (e : Element) (ty : TypeTag)
    (s : VState) (sid : Nat) (hst : e.storeId = some sid) :
    sid ∈ (validateChildKeys (Node.elem e) ty s).validatedIds := by
  simp only [validateChildKeys]
  rw [hst]
  exact List.mem_cons_self _ _

/-- Every element passed directly as one of the children arguments (and
carrying a store) ends up marked validated after the facade's child-keys
loop. -/
theorem validateAllChildKeys_marks (children : List Node) (ty : TypeTag) :
    ∀ (s : VState) (e : Element) (sid : Nat), Node.elem e ∈ children →
      e.storeId = some sid →
      sid ∈ (validateAllChildKeys children ty s).validatedIds := by
  induction children with
  | nil => intro s e sid h; cases h
  | cons c rest ih =>
      intro s e sid hmem hst
      rcases List.mem_cons.mp hmem with hc | hc
      · cases hc
        exact validateAllChildKeys_validated_mono rest ty _ sid
          (validateChildKeys_elem_marks e ty s sid hst)
      · exact ih _ e sid hc hst

/-- Complete characterization of one `validateFragmentProps` call: it
clears the validating pointer, touches nothing but the warning stream, and
appends exactly one invalid-prop diagnostic naming the first key outside
the `{children, key}` allow-list (if any) and one invalid-ref diagnostic
when the `ref` field is not strictly `null`. -/
theorem validateFragmentProps_spec (f : Element) (s : VState) :
    ∃ t, validateFragmentProps f s
        = { s with currentlyValidatingElement := none,
                   warnings := s.warnings ++ t } ∧
      (∀ d ∈ t, isMissingKeyD d = false ∧ isInvalidTypeD d = false ∧
        d ≠ Diag.getDefaultPropsDeprecated) ∧
      countFragProp t = (match firstInvalidFragmentProp f.props.keys with
                         | some _ => 1
                         | none => 0) ∧
      (∀ k st, Diag.invalidFragProp k st ∈ t →
          firstInvalidFragmentProp f.props.keys = some k) ∧
      (∀ k, firstInvalidFragmentProp f.props.keys = some k →
          ∃ st, Diag.invalidFragProp k st ∈ t) ∧
      countFragRef t = (if f.ref = RefVal.rnull then 0 else 1) ∧
      (f.ref ≠ RefVal.rnull → ∃ st2, Diag.invalidFragRef st2 ∈ t) ∧
      (∀ st2, Diag.invalidFragRef st2 ∈ t → f.ref ≠ RefVal.rnull) ∧
      (firstInvalidFragmentProp f.props.keys = none → f.ref = RefVal.rnull →
          t = []) := by
  unfold validateFragmentProps
  rcases hk : firstInvalidFragmentProp f.props.keys with _ | k <;>
    by_cases hr : f.ref = RefVal.rnull
  · refine ⟨[], ?_, by simp, by simp [countFragProp], by simp, by simp,
      by simp [hr, countFragRef], fun h => absurd hr h, by simp,
      fun _ _ => rfl⟩
    simp [hr]
  · refine ⟨[Diag.invalidFragRef
        (getStackAddendum { s with currentlyValidatingElement := some f })],
      ?_, by simp [isMissingKeyD, isInvalidTypeD], by simp [countFragProp, isFragPropD],
      by simp, by simp, by simp [countFragRef, isFragRefD, hr],
      fun _ => ⟨getStackAddendum { s with currentlyValidatingElement := some f },
        by simp⟩,
      fun _ _ => hr, fun _ hr2 => absurd hr2 hr⟩
    simp [hr]
  · refine ⟨[Diag.invalidFragProp k
        (getStackAddendum { s with currentlyValidatingElement := some f })],
      ?_, by simp [isMissingKeyD, isInvalidTypeD],
      by simp [countFragProp, isFragPropD], ?_, ?_,
      by simp [countFragRef, isFragRefD, hr], fun h => absurd hr h,
      by simp, by simp⟩
    · simp [hr]
    · intro k' st h
      simp at h
      rw [h.1]
    · intro k0 h
      cases h
      exact ⟨getStackAddendum { s with currentlyValidatingElement := some f },
        by simp⟩
  · refine ⟨[Diag.invalidFragProp k
        (getStackAddendum { s with currentlyValidatingElement := some f }),
      Diag.invalidFragRef
        (getStackAddendum { s with currentlyValidatingElement := some f })],
      ?_, by simp [isMissingKeyD, isInvalidTypeD],
      by simp [countFragProp, isFragPropD, isFragRefD], ?_, ?_,
      by simp [countFragRef, isFragRefD, isFragPropD, hr],
      fun _ => ⟨getStackAddendum { s with currentlyValidatingElement := some f },
        by simp⟩,
      fun _ _ => hr, by simp⟩
    · simp [hr]
      rfl
    · intro k' st h
      simp at h
      rw [h.1]
    · intro k0 h
      cases h
      exact ⟨getStackAddendum { s with currentlyValidatingElement := some f },
        by simp⟩

/-- Complete case analysis of `validatePropTypes`: no-op for non-function
types; optional `getDefaultProps` deprecation warning; for a function type
with a schema the collaborator runs with the validating pointer set to the
element, and on success the pointer is unconditionally reset to empty while
on failure the collaborator's error state propagates untouched. -/
theorem validatePropTypes_spec (check : Collab) (e : Element) (s : VState) :
    (((∀ dn n hPT gdp, e.typ ≠ TypeTag.func dn n hPT gdp) ∨
      (∃ dn n, e.typ = TypeTag.func dn n false none ∨
               e.typ = TypeTag.func dn n false (some true))) ∧
      validatePropTypes check e s = .ok s) ∨
    ((∃ dn n, e.typ = TypeTag.func dn n false (some false)) ∧
      validatePropTypes check e s
        = .ok { s with warnings := s.warnings ++ [Diag.getDefaultPropsDeprecated] }) ∨
    (∃ u dn n gdp, e.typ = TypeTag.func dn n true gdp ∧
      check { s with currentlyValidatingElement := some e } = .ok u ∧
      (gdp = none ∨ gdp = some true) ∧
      validatePropTypes check e s = .ok { u with currentlyValidatingElement := none }) ∨
    (∃ u dn n, e.typ = TypeTag.func dn n true (some false) ∧
      check { s with currentlyValidatingElement := some e } = .ok u ∧
      validatePropTypes check e s
        = .ok { u with currentlyValidatingElement := none,
                       warnings := u.warnings ++ [Diag.getDefaultPropsDeprecated] }) ∨
    (∃ u dn n gdp, e.typ = TypeTag.func dn n true gdp ∧
      check { s with currentlyValidatingElement := some e } = .error u ∧
      validatePropTypes check e s = .error u) := by
  rcases hty : e.typ with t | ⟨dn, n, hPT, gdp⟩ | b | _ | _ | _ | nk | _
  case str =>
    exact Or.inl ⟨Or.inl (fun _ _ _ _ h => by cases h),
      by unfold validatePropTypes; rw [hty]⟩
  case symbol =>
    exact Or.inl ⟨Or.inl (fun _ _ _ _ h => by cases h),
      by unfold validatePropTypes; rw [hty]⟩
  case number =>
    exact Or.inl ⟨Or.inl (fun _ _ _ _ h => by cases h),
      by unfold validatePropTypes; rw [hty]⟩
  case undef =>
    exact Or.inl ⟨Or.inl (fun _ _ _ _ h => by cases h),
      by unfold validatePropTypes; rw [hty]⟩
  case jsnull =>
    exact Or.inl ⟨Or.inl (fun _ _ _ _ h => by cases h),
      by unfold validatePropTypes; rw [hty]⟩
  case obj =>
    exact Or.inl ⟨Or.inl (fun _ _ _ _ h => by cases h),
      by unfold validatePropTypes; rw [hty]⟩
  case boolean =>
    exact Or.inl ⟨Or.inl (fun _ _ _ _ h => by cases h),
      by unfold validatePropTypes; rw [hty]⟩
  case func =>
    cases hPT with
    | false =>
        cases gdp with
        | none =>
            exact Or.inl ⟨Or.inr ⟨dn, n, Or.inl rfl⟩,
              by unfold validatePropTypes; rw [hty]; rfl⟩
        | some approved =>
            cases approved with
            | true =>
                exact Or.inl ⟨Or.inr ⟨dn, n, Or.inr rfl⟩,
                  by unfold validatePropTypes; rw [hty]; rfl⟩
            | false =>
                exact Or.inr (Or.inl ⟨⟨dn, n, rfl⟩,
                  by unfold validatePropTypes; rw [hty]; rfl⟩)
    | true =>
        rcases hcs : check { s with currentlyValidatingElement := some e }
          with u | u
        · exact Or.inr (Or.inr (Or.inr (Or.inr ⟨u, dn, n, gdp, rfl, rfl,
            by unfold validatePropTypes; rw [hty, hcs]; rfl⟩)))
        · cases gdp with
          | none =>
              exact Or.inr (Or.inr (Or.inl ⟨u, dn, n, none, rfl, rfl,
                Or.inl rfl, by unfold validatePropTypes; rw [hty, hcs]; rfl⟩))
          | some approved =>
              cases approved with
              | true =>
                  exact Or.inr (Or.inr (Or.inl ⟨u, dn, n, some true, rfl, rfl,
                    Or.inr rfl, by unfold validatePropTypes; rw [hty, hcs]; rfl⟩))
              | false =>
                  exact Or.inr (Or.inr (Or.inr (Or.inl ⟨u, dn, n, rfl, rfl,
                    by unfold validatePropTypes; rw [hty, hcs]; rfl⟩)))

/-- On normal return from `validatePropTypes` the validating pointer is
empty (schema branch taken) or untouched (no schema was checked). -/
theorem validatePropTypes_ok_cve (check : Collab) (e : Element)
    (s s' : VState) (h : validatePropTypes check e s = .ok s') :
    s'.currentlyValidatingElement = none ∨
    s'.currentlyValidatingElement = s.currentlyValidatingElement := by
  rcases validatePropTypes_spec check e s with ⟨_, hres⟩ | ⟨_, hres⟩ |
      ⟨u, dn, n, gdp, _, _, _, hres⟩ | ⟨u, dn, n, _, _, hres⟩ |
      ⟨u, dn, n, gdp, _, _, hres⟩ <;> cases hres.symm.trans h
  · exact Or.inr rfl
  · exact Or.inr rfl
  · exact Or.inl rfl
  · exact Or.inl rfl

/-- An error outcome of `validatePropTypes` is exactly an error of the
schema-checking collaborator, whose state propagates untouched — the
pointer is not restored. -/
theorem validatePropTypes_error (check : Collab) (e : Element)
    (s s' : VState) (h : validatePropTypes check e s = .error s') :
    check { s with currentlyValidatingElement := some e } = .error s' := by
  rcases validatePropTypes_spec check e s with ⟨_, hres⟩ | ⟨_, hres⟩ |
      ⟨u, dn, n, gdp, _, hcs, _, hres⟩ | ⟨u, dn, n, _, hcs, hres⟩ |
      ⟨u, dn, n, gdp, _, hcs, hres⟩ <;> cases hres.symm.trans h
  exact hcs

/-- `validatePropTypes` preserves the filtered count of any diagnostic
kind other than the `getDefaultProps` deprecation, provided the
collaborator does. -/
theorem validatePropTypes_count (p : Diag → Bool)
    (hp : p Diag.getDefaultPropsDeprecated = false)
    (check : Collab) (e : Element) (s s' : VState)
    (hc : ∀ t t', check t = .ok t' →
        (t'.warnings.filter p).length = (t.warnings.filter p).length)
    (h : validatePropTypes check e s = .ok s') :
    (s'.warnings.filter p).length = (s.warnings.filter p).length := by
  rcases validatePropTypes_spec check e s with ⟨_, hres⟩ | ⟨_, hres⟩ |
      ⟨u, dn, n, gdp, _, hcs, _, hres⟩ | ⟨u, dn, n, _, hcs, hres⟩ |
      ⟨u, dn, n, gdp, _, hcs, hres⟩ <;> cases hres.symm.trans h
  · rfl
  · exact filter_length_append_none p _ _ (by simp [hp])
  · exact hc { s with currentlyValidatingElement := some e } u hcs
  · exact (filter_length_append_none p _ _ (by simp [hp])).trans
      (hc { s with currentlyValidatingElement := some e } u hcs)

/-- `validatePropTypes` preserves already-set `validated` flags, provided
the collaborator does. -/
theorem validatePropTypes_validated_mono (check : Collab) (e : Element)
    (s s' : VState)
    (hc : ∀ t t', check t = .ok t' → ∀ i ∈ t.validatedIds, i ∈ t'.validatedIds)
    (h : validatePropTypes check e s = .ok s') (i : Nat)
    (hi : i ∈ s.validatedIds) : i ∈ s'.validatedIds := by
  rcases validatePropTypes_spec check e s with ⟨_, hres⟩ | ⟨_, hres⟩ |
      ⟨u, dn, n, gdp, _, hcs, _, hres⟩ | ⟨u, dn, n, _, hcs, hres⟩ |
      ⟨u, dn, n, gdp, _, hcs, hres⟩ <;> cases hres.symm.trans h
  · exact hi
  · exact hi
  · exact hc { s with currentlyValidatingElement := some e } u hcs i hi
  · exact hc { s with currentlyValidatingElement := some e } u hcs i hi

/-- `validatePropTypes` never deletes a warning, provided the collaborator
does not. -/
theorem validatePropTypes_warnings_mem (check : Collab) (e : Element)
    (s s' : VState)
    (hc : ∀ t t', check t = .ok t' → ∀ d ∈ t.warnings, d ∈ t'.warnings)
    (h : validatePropTypes check e s = .ok s') (d : Diag)
    (hd : d ∈ s.warnings) : d ∈ s'.warnings := by
  rcases validatePropTypes_spec check e s with ⟨_, hres⟩ | ⟨_, hres⟩ |
      ⟨u, dn, n, gdp, _, hcs, _, hres⟩ | ⟨u, dn, n, _, hcs, hres⟩ |
      ⟨u, dn, n, gdp, _, hcs, hres⟩ <;> cases hres.symm.trans h
  · exact hd
  · exact List.mem_append_left _ hd
  · exact hc { s with currentlyValidatingElement := some e } u hcs d hd
  · exact List.mem_append_left _
      (hc { s with currentlyValidatingElement := some e } u hcs d hd)

/-- When the element's type carries an unapproved `getDefaultProps`,
every normal return of `validatePropTypes` has emitted the deprecation
diagnostic. -/
theorem validatePropTypes_gdp (check : Collab) (e : Element)
    (dn n : Option String) (hPT : Bool) (s s' : VState)
    (hty : e.typ = TypeTag.func dn n hPT (some false))
    (h : validatePropTypes check e s = .ok s') :
    Diag.getDefaultPropsDeprecated ∈ s'.warnings := by
  rcases validatePropTypes_spec check e s with ⟨hcond, hres⟩ | ⟨_, hres⟩ |
      ⟨u, dn', n', gdp, hty', hcs, hgdp, hres⟩ | ⟨u, dn', n', _, hcs, hres⟩ |
      ⟨u, dn', n', gdp, _, hcs, hres⟩ <;> cases hres.symm.trans h
  · exfalso
    rcases hcond with hnf | ⟨dn', n', hc1 | hc1⟩
    · exact hnf dn n hPT (some false) hty
    · have h2 := hty.symm.trans hc1
      injection h2 with h21 h22 h23 h24
      cases h24
    · have h2 := hty.symm.trans hc1
      injection h2 with h21 h22 h23 h24
      injection h24 with h25
      cases h25
  · exact List.mem_append_right _ (List.mem_singleton_self _)
  · exfalso
    have h2 := hty.symm.trans hty'
    injection h2 with h21 h22 h23 h24
    rcases hgdp with hg | hg <;> rw [hg] at h24
    · cases h24
    · injection h24 with h25
      cases h25
  · exact List.mem_append_right _ (List.mem_singleton_self _)

/-- Driving `validateKeysOver` is exactly running `validateExplicitKey`
over the element-valued items, in order. -/
theorem validateKeysOver_eq_runKeyCalls (values : List Node) (pt : TypeTag) :
    ∀ s : VState, validateKeysOver values pt s
      = runKeyCalls ((values.filterMap elemOf).map (fun e => (e, pt))) s := by
  induction values with
  | nil => exact fun s => rfl
  | cons v rest ih =>
      intro s
      cases v with
      | prim => exact ih s
      | jsnull => exact ih s
      | arr l => exact ih s
      | obj it b => exact ih s
      | elem e => exact ih (validateExplicitKey e pt s)

/-- `firstInvalidFragmentProp` returns `none` exactly when every key is in
the allow-list. -/
theorem firstInvalidFragmentProp_none (ks : List String) :
    firstInvalidFragmentProp ks = none ↔
      ∀ k ∈ ks, k = "children" ∨ k = "key" := by
  induction ks with
  | nil => simp [firstInvalidFragmentProp]
  | cons a rest ih =>
      by_cases ha : a = "children" ∨ a = "key"
      · rw [firstInvalidFragmentProp, if_pos ha]
        rw [ih]
        constructor
        · intro h k hk
          rcases List.mem_cons.mp hk with hk | hk
          · rw [hk]; exact ha
          · exact h k hk
        · intro h k hk
          exact h k (List.mem_cons_of_mem a hk)
      · rw [firstInvalidFragmentProp, if_neg ha]
        constructor
        · intro h; cases h
        · intro h
          exact absurd (h a (List.mem_cons_self a rest)) ha

/-- When `firstInvalidFragmentProp` returns a key, that key is the first
one in scan order outside the allow-list. -/
theorem firstInvalidFragmentProp_some (ks : List String) (k : String)
    (h : firstInvalidFragmentProp ks = some k) :
    k ∈ ks ∧ ¬(k = "children" ∨ k = "key") ∧
    ∃ pre post, ks = pre ++ k :: post ∧
      ∀ a ∈ pre, a = "children" ∨ a = "key" := by
  induction ks with
  | nil => cases h
  | cons a rest ih =>
      by_cases ha : a = "children" ∨ a = "key"
      · rw [firstInvalidFragmentProp, if_pos ha] at h
        rcases ih h with ⟨hmem, hnk, pre, post, heq, hpre⟩
        refine ⟨List.mem_cons_of_mem a hmem, hnk, a :: pre, post, ?_, ?_⟩
        · rw [List.cons_append, heq]
        · intro x hx
          rcases List.mem_cons.mp hx with hx | hx
          · rw [hx]; exact ha
          · exact hpre x hx
      · rw [firstInvalidFragmentProp, if_neg ha] at h
        cases h
        exact ⟨List.mem_cons_self _ _, ha, [], rest, rfl, by simp⟩

/-! ## Claim theorems -/

/-- C1: the missing-key diagnostic is emitted at most once per distinct
diagnostic context per process lifetime: a `validateExplicitKey` call
whose computed context string is already in the dedup store emits no
diagnostic, and across any sequence of calls the number of missing-key
diagnostics emitted equals the number of (distinct, duplicate-free)
context strings recorded in the store. -/
theorem C1_missing_key_dedup :
    (∀ (e : Element) (pt : TypeTag) (s : VState),
        getCurrentComponentErrorInfo pt s ∈ s.ownerHasKeyUseWarning →
        (validateExplicitKey e pt s).warnings = s.warnings) ∧
    (∀ (calls : List (Element × TypeTag)) (s : VState),
        countMissingKey s.warnings = s.ownerHasKeyUseWarning.length →
        s.ownerHasKeyUseWarning.Nodup →
        countMissingKey (runKeyCalls calls s).warnings
            = (runKeyCalls calls s).ownerHasKeyUseWarning.length ∧
          (runKeyCalls calls s).ownerHasKeyUseWarning.Nodup) :=
  ⟨validateExplicitKey_dedup_hit,
   fun calls s h hn => runKeyCalls_balance calls s h hn⟩

/-- C3: for every element with no validation record, or already marked
validated, or carrying a non-null key, `validateExplicitKey` is a no-op:
the state — diagnostics, validation records and dedup store — is returned
unchanged. -/
theorem C3_validateExplicitKey_noop (e : Element) (pt : TypeTag) (s : VState)
    (h : e.storeId = none ∨ storeValidated s e = true ∨ e.key ≠ none) :
    validateExplicitKey e pt s = s :=
  validateExplicitKey_noop e pt s h

/-- C4: the `alreadyValidated` flag is monotone — every operation of the
core (`validateExplicitKey`, `validateChildKeys`, `validateFragmentProps`,
and `validatePropTypes` whenever the external collaborator preserves the
flags) keeps every set flag set — and `validateExplicitKey` sets the flag
whenever its no-op preconditions fail, whether or not the diagnostic is
then suppressed by deduplication. -/
theorem C4_validated_monotone :
    (∀ (e : Element) (pt : TypeTag) (s : VState) (i : Nat),
        i ∈ s.validatedIds → i ∈ (validateExplicitKey e pt s).validatedIds) ∧
    (∀ (n : Node) (pt : TypeTag) (s : VState) (i : Nat),
        i ∈ s.validatedIds → i ∈ (validateChildKeys n pt s).validatedIds) ∧
    (∀ (f : Element) (s : VState),
        (validateFragmentProps f s).validatedIds = s.validatedIds) ∧
    (∀ (check : Collab) (e : Element) (s s' : VState),
        (∀ t t', check t = .ok t' → ∀ i ∈ t.validatedIds, i ∈ t'.validatedIds) →
        validatePropTypes check e s = .ok s' →
        ∀ i ∈ s.validatedIds, i ∈ s'.validatedIds) ∧
    (∀ (e : Element) (pt : TypeTag) (s : VState) (sid : Nat),
        e.storeId = some sid → sid ∉ s.validatedIds → e.key = none →
        sid ∈ (validateExplicitKey e pt s).validatedIds) := by
  refine ⟨validateExplicitKey_validated_mono,
    validateChildKeys_validated_mono, ?_, ?_, validateExplicitKey_marks⟩
  · intro f s
    rcases validateFragmentProps_spec f s with ⟨t, hres, _⟩
    rw [hres]
  · intro check e s s' hc h i hi
    exact validatePropTypes_validated_mono check e s s' hc h i hi

/-- C5: a single element node passed directly as a children argument
produces no missing-key diagnostic regardless of its key, and its
validation record (when it has one) is marked `true`, so a later
`validateExplicitKey` on it is a no-op. -/
theorem C5_single_element_child (e : Element) (pt pt' : TypeTag)
    (s : VState) :
    (validateChildKeys (Node.elem e) pt s).warnings = s.warnings ∧
    (∀ sid, e.storeId = some sid →
        sid ∈ (validateChildKeys (Node.elem e) pt s).validatedIds ∧
        validateExplicitKey e pt' (validateChildKeys (Node.elem e) pt s)
          = validateChildKeys (Node.elem e) pt s) := by
  constructor
  · rcases hst : e.storeId with _ | sid
    · simp only [validateChildKeys]
      rw [hst]
    · simp only [validateChildKeys]
      rw [hst]
  · intro sid hst
    have hm := validateChildKeys_elem_marks e pt s sid hst
    refine ⟨hm, ?_⟩
    apply validateExplicitKey_noop
    right; left
    simp [storeValidated, hst]
    exact hm

/-- C6: for a non-array object exposing the iterator protocol,
`validateChildKeys` drives the iterator to exhaustion, running
`validateExplicitKey` on exactly the produced values that are genuine
elements, in order — except when the iterator function is the object's
own `entries` function, in which case nothing is iterated and nothing is
emitted; an object without an iterator function is likewise untouched. -/
theorem C6_iterator_protocol (values : List Node) (pt : TypeTag)
    (s : VState) :
    validateChildKeys (Node.obj (some values) true) pt s = s ∧
    validateChildKeys (Node.obj (some values) false) pt s
      = runKeyCalls ((values.filterMap elemOf).map (fun e => (e, pt))) s ∧
    (∀ b, validateChildKeys (Node.obj none b) pt s = s) :=
  ⟨rfl, validateKeysOver_eq_runKeyCalls values pt s, fun _ => rfl⟩

/-- C7: `validateFragmentProps` emits at most one invalid-prop diagnostic
per call, naming exactly the first property key outside the allow-list
`{key, children}` in scan order; independently it emits one invalid-ref
diagnostic exactly when the element's ref is not strictly null; a fragment
whose keys are all allow-listed and whose ref is null produces no
diagnostic. -/
theorem C7_fragment_props (f : Element) (s : VState) :
    ∃ t, (validateFragmentProps f s).warnings = s.warnings ++ t ∧
      countFragProp t ≤ 1 ∧
      (∀ k st, Diag.invalidFragProp k st ∈ t →
          k ∈ f.props.keys ∧ ¬(k = "children" ∨ k = "key") ∧
          ∃ pre post, f.props.keys = pre ++ k :: post ∧
            ∀ a ∈ pre, a = "children" ∨ a = "key") ∧
      (∀ k, firstInvalidFragmentProp f.props.keys = some k →
          ∃ st, Diag.invalidFragProp k st ∈ t) ∧
      ((f.ref ≠ RefVal.rnull) ↔ (∃ st, Diag.invalidFragRef st ∈ t)) ∧
      ((∀ k ∈ f.props.keys, k = "children" ∨ k = "key") →
          f.ref = RefVal.rnull → t = []) := by
  rcases validateFragmentProps_spec f s with
    ⟨t, hres, hkinds, hcount, hname, hexists, href, hrefmem, hrefmem2, hnil⟩
  refine ⟨t, by rw [hres], ?_, ?_, hexists, ⟨hrefmem, ?_⟩, ?_⟩
  · rw [hcount]
    cases firstInvalidFragmentProp f.props.keys <;> simp
  · intro k st hmem
    exact firstInvalidFragmentProp_some f.props.keys k (hname k st hmem)
  · intro ⟨st2, hst2⟩
    exact hrefmem2 st2 hst2
  · intro hall hr
    exact hnil ((firstInvalidFragmentProp_none f.props.keys).mpr hall) hr

/-- C10: the fragment ref check is a strict `!== null` comparison: a ref
that is `undefined` (or any actual value) adds exactly one invalid-ref
diagnostic; only a ref strictly equal to `null` is accepted silently. -/
theorem C10_fragment_ref_strict (f : Element) (s : VState) :
    countFragRef (validateFragmentProps f s).warnings
        = countFragRef s.warnings
          + (if f.ref = RefVal.rnull then 0 else 1) ∧
    (f.ref = RefVal.rundefined →
      countFragRef (validateFragmentProps f s).warnings
        = countFragRef s.warnings + 1) := by
  rcases validateFragmentProps_spec f s with
    ⟨t, hres, _, _, _, _, href, _⟩
  have hmain : countFragRef (validateFragmentProps f s).warnings
      = countFragRef s.warnings + (if f.ref = RefVal.rnull then 0 else 1) := by
    calc countFragRef (validateFragmentProps f s).warnings
        = countFragRef (s.warnings ++ t) := by rw [hres]
      _ = countFragRef s.warnings + countFragRef t := by
            simp [countFragRef, List.filter_append]
      _ = countFragRef s.warnings + (if f.ref = RefVal.rnull then 0 else 1) := by
            rw [href]
  refine ⟨hmain, fun hu => ?_⟩
  rw [hmain, if_neg (by rw [hu]; exact fun h => by cases h)]

/-- With an invalid type the key-validation step is skipped. -/
theorem childKeysState_invalid (type : TypeTag) (props : Option Props)
    (children : List Node) (s : VState) (h : validTypeTag type = false) :
    childKeysState type props children s = invalidTypeState type props s := by
  unfold childKeysState
  rw [if_neg (by simp [h])]

/-- With a valid type no invalid-type diagnostic precedes key
validation. -/
theorem childKeysState_valid (type : TypeTag) (props : Option Props)
    (children : List Node) (s : VState) (h : validTypeTag type = true) :
    childKeysState type props children s
      = validateAllChildKeys children type s := by
  unfold childKeysState invalidTypeState
  rw [if_pos (by simp [h]), if_pos (by simp [h])]

/-- The invalid-type step adds exactly one invalid-type diagnostic when
the type is invalid and none otherwise. -/
theorem invalidTypeState_countInvalidType (type : TypeTag)
    (props : Option Props) (s : VState) :
    countInvalidType (invalidTypeState type props s).warnings
      = countInvalidType s.warnings
        + (if validTypeTag type then 0 else 1) := by
  unfold invalidTypeState
  cases h : validTypeTag type <;>
    simp [h, countInvalidType, List.filter_append, isInvalidTypeD]

/-- The invalid-type step adds no missing-key diagnostic. -/
theorem invalidTypeState_countMissingKey (type : TypeTag)
    (props : Option Props) (s : VState) :
    countMissingKey (invalidTypeState type props s).warnings
      = countMissingKey s.warnings := by
  unfold invalidTypeState
  cases h : validTypeTag type <;>
    simp [h, countMissingKey, List.filter_append, isMissingKeyD]

/-- The invalid-type step keeps every earlier warning. -/
theorem invalidTypeState_warnings_mem (type : TypeTag) (props : Option Props)
    (s : VState) (d : Diag) (h : d ∈ s.warnings) :
    d ∈ (invalidTypeState type props s).warnings := by
  unfold invalidTypeState
  cases hv : validTypeTag type <;> simp [h]

/-- With an invalid type the step emits exactly the invalid-type
diagnostic computed from the current state. -/
theorem invalidTypeState_mem_diag (type : TypeTag) (props : Option Props)
    (s : VState) (h : validTypeTag type = false) :
    Diag.invalidType (jsTypeDesc type) (invalidTypeInfo type props s)
      ∈ (invalidTypeState type props s).warnings := by
  unfold invalidTypeState
  rw [if_neg (by simp [h])]
  simp

/-- The invalid-type step does not touch the validation records. -/
theorem invalidTypeState_validatedIds (type : TypeTag) (props : Option Props)
    (s : VState) :
    (invalidTypeState type props s).validatedIds = s.validatedIds := by
  unfold invalidTypeState
  cases hv : validTypeTag type <;> simp

/-- `validateFragmentProps` emits no missing-key diagnostic. -/
theorem validateFragmentProps_countMissingKey (f : Element) (s : VState) :
    countMissingKey (validateFragmentProps f s).warnings
      = countMissingKey s.warnings := by
  rcases validateFragmentProps_spec f s with ⟨t, hres, hkinds, _⟩
  rw [hres]
  exact filter_length_append_none _ _ _ (fun d hd => (hkinds d hd).1)

/-- `validateFragmentProps` emits no invalid-type diagnostic. -/
theorem validateFragmentProps_countInvalidType (f : Element) (s : VState) :
    countInvalidType (validateFragmentProps f s).warnings
      = countInvalidType s.warnings := by
  rcases validateFragmentProps_spec f s with ⟨t, hres, hkinds, _⟩
  rw [hres]
  exact filter_length_append_none _ _ _ (fun d hd => (hkinds d hd).2.1)

/-- `validateFragmentProps` keeps every earlier warning. -/
theorem validateFragmentProps_warnings_mem (f : Element) (s : VState)
    (d : Diag) (h : d ∈ s.warnings) :
    d ∈ (validateFragmentProps f s).warnings := by
  rcases validateFragmentProps_spec f s with ⟨t, hres, _⟩
  rw [hres]
  exact List.mem_append_left _ h

/-- Complete case analysis of `createElementWithValidation`: the element
primitive always runs; a nullish element returns early after the
invalid-type check; otherwise the key-validation step runs (for valid
types), then the fragment validator (for the fragment symbol) or the
schema validator, whose error (if any) propagates. -/
theorem createElementWithValidation_spec (check : Collab)
    (createEl : CreateEl) (type : TypeTag) (props : Option Props)
    (children : List Node) (s : VState) :
    (createEl type props children = none ∧
      createElementWithValidation check createEl type props children s
        = .ok (none, invalidTypeState type props s)) ∨
    (∃ el, createEl type props children = some el ∧
      ((type = TypeTag.symbol true ∧
        createElementWithValidation check createEl type props children s
          = .ok (some el,
              validateFragmentProps el (childKeysState type props children s))) ∨
       (type ≠ TypeTag.symbol true ∧ ∃ s3,
         validatePropTypes check el (childKeysState type props children s)
             = .ok s3 ∧
         createElementWithValidation check createEl type props children s
           = .ok (some el, s3)) ∨
       (type ≠ TypeTag.symbol true ∧ ∃ s3,
         validatePropTypes check el (childKeysState type props children s)
             = .error s3 ∧
         createElementWithValidation check createEl type props children s
           = .error s3))) := by
  rcases hce : createEl type props children with _ | el
  · left
    refine ⟨rfl, ?_⟩
    simp only [createElementWithValidation, hce]
    rfl
  · right
    by_cases hf : type = TypeTag.symbol true
    · refine ⟨el, rfl, Or.inl ⟨hf, ?_⟩⟩
      simp only [createElementWithValidation, hce]
      rw [if_pos hf]
      rfl
    · have key : createElementWithValidation check createEl type props children s
          = (match validatePropTypes check el (childKeysState type props children s) with
             | .ok s3 => Except.ok (some el, s3)
             | .error s3 => Except.error s3) := by
        simp only [createElementWithValidation, hce]
        rw [if_neg hf]
        rfl
      rcases hvp : validatePropTypes check el (childKeysState type props children s)
        with u | u
      · exact ⟨el, rfl, Or.inr (Or.inr ⟨hf, u, hvp,
          key.trans (by rw [hvp])⟩)⟩
      · exact ⟨el, rfl, Or.inr (Or.inl ⟨hf, u, hvp,
          key.trans (by rw [hvp])⟩)⟩

/-- Complete case analysis of `cloneElementWithValidation`: the clone
primitive always runs, key validation runs over the children with the
clone's type, and the schema validator's outcome decides the result. -/
theorem cloneElementWithValidation_spec (check : Collab) (cloneEl : CloneEl)
    (element : Element) (props : Option Props) (children : List Node)
    (s : VState) :
    (∃ s3, validatePropTypes check (cloneEl element props children)
          (validateAllChildKeys children (cloneEl element props children).typ s)
        = .ok s3 ∧
      cloneElementWithValidation check cloneEl element props children s
        = .ok (cloneEl element props children, s3)) ∨
    (∃ s3, validatePropTypes check (cloneEl element props children)
          (validateAllChildKeys children (cloneEl element props children).typ s)
        = .error s3 ∧
      cloneElementWithValidation check cloneEl element props children s
        = .error s3) := by
  have key : cloneElementWithValidation check cloneEl element props children s
      = (match validatePropTypes check (cloneEl element props children)
            (validateAllChildKeys children (cloneEl element props children).typ s) with
         | .ok s3 => Except.ok (cloneEl element props children, s3)
         | .error s3 => Except.error s3) := rfl
  rcases hvp : validatePropTypes check (cloneEl element props children)
      (validateAllChildKeys children (cloneEl element props children).typ s)
    with u | u
  · exact Or.inr ⟨u, rfl, key.trans (by rw [hvp])⟩
  · exact Or.inl ⟨u, rfl, key.trans (by rw [hvp])⟩

/-- C2 (counterexample): with a collaborator that raises, the schema
validation entry point propagates the error with the
CurrentlyValidatingPointer still set to the element being validated — it
is NOT restored to its prior (empty) value before returning, so the
claimed scoped acquire/release discipline fails on the error path. -/
theorem C2_counterexample :
    validatePropTypes throwingCheck eC2 sEmpty
        = .error { sEmpty with currentlyValidatingElement := some eC2 } ∧
    sEmpty.currentlyValidatingElement = none ∧
    ({ sEmpty with
        currentlyValidatingElement := some eC2 } : VState).currentlyValidatingElement
      ≠ sEmpty.currentlyValidatingElement :=
  ⟨rfl, rfl, by simp [sEmpty]⟩

/-- C2 (amended): on normal return each validation entry point either
resets the CurrentlyValidatingPointer unconditionally to empty (after a
validation step ran) or leaves it untouched (no step ran) — it is a flat
set/null pattern, not a restore-to-prior-value; and when the
schema-checking collaborator raises, the error propagates with the
pointer exactly as the collaborator left it (initially pointing at the
element), not restored. -/
theorem C2_pointer_flat_reset (check : Collab) (e f el : Element)
    (pt : TypeTag) (s : VState) :
    (∀ s', validatePropTypes check e s = .ok s' →
        s'.currentlyValidatingElement = none ∨
        s'.currentlyValidatingElement = s.currentlyValidatingElement) ∧
    (∀ s', validatePropTypes check e s = .error s' →
        check { s with currentlyValidatingElement := some e } = .error s') ∧
    (validateFragmentProps f s).currentlyValidatingElement = none ∧
    ((validateExplicitKey el pt s).currentlyValidatingElement = none ∨
      (validateExplicitKey el pt s).currentlyValidatingElement
        = s.currentlyValidatingElement) := by
  refine ⟨fun s' h => validatePropTypes_ok_cve check e s s' h,
    fun s' h => validatePropTypes_error check e s s' h, ?_, ?_⟩
  · rcases validateFragmentProps_spec f s with ⟨t, hres, _⟩
    rw [hres]
  · rcases validateExplicitKey_spec el pt s with ⟨_, hres⟩ |
        ⟨sid, _, _, _, _, hres⟩ | ⟨sid, o, st, _, _, _, _, hres⟩ <;> rw [hres]
    · exact Or.inr rfl
    · exact Or.inr rfl
    · exact Or.inl rfl

/-- C2 witness: the amended theorem applied at concrete inputs — a
collaborator that returns cleanly (pointer ends empty) and one that
raises (the raising collaborator's state passes through). -/
theorem C2_pointer_flat_reset_witness :
    (sEmpty.currentlyValidatingElement = none ∨
      sEmpty.currentlyValidatingElement = sEmpty.currentlyValidatingElement) ∧
    throwingCheck { sEmpty with currentlyValidatingElement := some eC2 }
      = .error { sEmpty with currentlyValidatingElement := some eC2 } :=
  ⟨(C2_pointer_flat_reset okCheck eC2 eC2 eC2 (TypeTag.str "div") sEmpty).1
      sEmpty rfl,
   (C2_pointer_flat_reset throwingCheck eC2 eC2 eC2 (TypeTag.str "div")
      sEmpty).2.1 { sEmpty with currentlyValidatingElement := some eC2 } rfl⟩

/-- C8: constructing with an invalid type tag emits exactly one
invalid-type diagnostic — whose info string starts with the
missing-export hint when the type is `undefined` or an empty plain
object — still delegates to the external construction primitive and
returns its result, and skips key validation over the children; with a
valid type tag, `validateChildKeys` runs on every argument beyond the
first two (observably: every element passed directly as a children
argument gets its validation record marked).  The collaborator
hypotheses say only that the external schema checker does not itself
emit or delete the relevant diagnostics. -/
theorem C8_createElement_validation (check : Collab) (createEl : CreateEl)
    (type : TypeTag) (props : Option Props) (children : List Node)
    (s : VState) :
    (∀ res s',
        createElementWithValidation check createEl type props children s
          = .ok (res, s') →
        res = createEl type props children) ∧
    ((∀ t t', check t = .ok t' →
        countInvalidType t'.warnings = countInvalidType t.warnings) →
      ∀ res s',
        createElementWithValidation check createEl type props children s
          = .ok (res, s') →
        countInvalidType s'.warnings
          = countInvalidType s.warnings
            + (if validTypeTag type then 0 else 1)) ∧
    ((type = TypeTag.undef ∨ type = TypeTag.obj 0) →
      ∃ rest, invalidTypeInfo type props s = missingExportHint ++ rest) ∧
    ((∀ t t', check t = .ok t' → ∀ d ∈ t.warnings, d ∈ t'.warnings) →
      validTypeTag type = false →
      ∀ res s',
        createElementWithValidation check createEl type props children s
          = .ok (res, s') →
        Diag.invalidType (jsTypeDesc type) (invalidTypeInfo type props s)
          ∈ s'.warnings) ∧
    ((∀ t t', check t = .ok t' →
        countMissingKey t'.warnings = countMissingKey t.warnings) →
      validTypeTag type = false →
      ∀ res s',
        createElementWithValidation check createEl type props children s
          = .ok (res, s') →
        countMissingKey s'.warnings = countMissingKey s.warnings) ∧
    ((∀ t t', check t = .ok t' → ∀ i ∈ t.validatedIds, i ∈ t'.validatedIds) →
      validTypeTag type = true →
      ∀ (e : Element) (sid : Nat), Node.elem e ∈ children →
        e.storeId = some sid →
      ∀ (el : Element), createEl type props children = some el →
      ∀ res s',
        createElementWithValidation check createEl type props children s
          = .ok (res, s') →
        sid ∈ s'.validatedIds) := by
  refine ⟨?_, ?_, ?_, ?_, ?_, ?_⟩
  · -- delegation
    intro res s' h
    rcases createElementWithValidation_spec check createEl type props children s
      with ⟨hce, hres⟩ | ⟨el, hce, ⟨_, hres⟩ | ⟨_, s3, _, hres⟩ | ⟨_, s3, _, hres⟩⟩ <;>
      cases hres.symm.trans h <;> exact hce.symm
  · -- invalid-type diagnostic count
    intro hc res s' h
    have hcks : countInvalidType (childKeysState type props children s).warnings
        = countInvalidType s.warnings + (if validTypeTag type then 0 else 1) := by
      unfold childKeysState
      cases hv : validTypeTag type
      · rw [if_neg (by simp [hv])]
        have h1 := invalidTypeState_countInvalidType type props s
        rw [hv] at h1
        exact h1
      · rw [if_pos (by simp [hv])]
        have h1 := (validateAllChildKeys_count_other isInvalidTypeD
            (by intro c o st; rfl) children type
            (invalidTypeState type props s)).trans
          (invalidTypeState_countInvalidType type props s)
        rw [hv] at h1
        exact h1
    rcases createElementWithValidation_spec check createEl type props children s
      with ⟨hce, hres⟩ | ⟨el, hce, ⟨hf, hres⟩ | ⟨hf, s3, hvp, hres⟩ | ⟨hf, s3, hvp, hres⟩⟩ <;>
      cases hres.symm.trans h
    · have h1 := invalidTypeState_countInvalidType type props s
      exact h1
    · exact (validateFragmentProps_countInvalidType el _).trans hcks
    · exact (validatePropTypes_count isInvalidTypeD rfl check el _ _ hc hvp).trans hcks
  · -- the missing-export hint
    intro h
    rcases h with h | h <;> rw [h] <;>
      exact ⟨invalidTypeInfoTail props s, rfl⟩
  · -- the emitted diagnostic reaches the final state
    intro hc hinvalid res s' h
    have hdiag : Diag.invalidType (jsTypeDesc type) (invalidTypeInfo type props s)
        ∈ (invalidTypeState type props s).warnings :=
      invalidTypeState_mem_diag type props s hinvalid
    rcases createElementWithValidation_spec check createEl type props children s
      with ⟨hce, hres⟩ | ⟨el, hce, ⟨hf, hres⟩ | ⟨hf, s3, hvp, hres⟩ | ⟨hf, s3, hvp, hres⟩⟩ <;>
      cases hres.symm.trans h
    · exact hdiag
    · rw [hf] at hinvalid
      cases hinvalid
    · rw [childKeysState_invalid type props children s hinvalid] at hvp
      exact validatePropTypes_warnings_mem check el _ _ hc hvp _ hdiag
  · -- key validation skipped on invalid types
    intro hc hinvalid res s' h
    rcases createElementWithValidation_spec check createEl type props children s
      with ⟨hce, hres⟩ | ⟨el, hce, ⟨hf, hres⟩ | ⟨hf, s3, hvp, hres⟩ | ⟨hf, s3, hvp, hres⟩⟩ <;>
      cases hres.symm.trans h
    · exact invalidTypeState_countMissingKey type props s
    · rw [hf] at hinvalid
      cases hinvalid
    · rw [childKeysState_invalid type props children s hinvalid] at hvp
      exact (validatePropTypes_count isMissingKeyD rfl check el _ _ hc hvp).trans
        (invalidTypeState_countMissingKey type props s)
  · -- with a valid type every direct element child gets marked
    intro hc hvalid e sid hmem hst el hel res s' h
    have hmark : sid ∈ (childKeysState type props children s).validatedIds := by
      rw [childKeysState_valid type props children s hvalid]
      exact validateAllChildKeys_marks children type s e sid hmem hst
    rcases createElementWithValidation_spec check createEl type props children s
      with ⟨hce, hres⟩ | ⟨el', hce, ⟨hf, hres⟩ | ⟨hf, s3, hvp, hres⟩ | ⟨hf, s3, hvp, hres⟩⟩ <;>
      cases hres.symm.trans h
    · rw [hel] at hce
      cases hce
    · rcases validateFragmentProps_spec el' (childKeysState type props children s)
        with ⟨t, hres2, _⟩
      rw [hres2]
      exact hmark
    · exact validatePropTypes_validated_mono check el' _ _ hc hvp sid hmark

/-- C9: cloning returns the clone primitive's result unchanged, runs
`validateChildKeys` on every children argument using the clone's resolved
type (observably: every element passed directly as a children argument
gets its validation record marked), and runs the property-schema
validator on the clone (observably: an unapproved `getDefaultProps` on
the clone's type always yields the deprecation diagnostic); the fragment
property validator never runs on the clone path — no fragment diagnostic
is ever added, even when the clone's type is the fragment marker.  The
collaborator hypotheses say only that the external schema checker
preserves the relevant diagnostics and flags. -/
theorem C9_cloneElement_validation (check : Collab) (cloneEl : CloneEl)
    (element : Element) (props : Option Props) (children : List Node)
    (s : VState) :
    (∀ res s',
        cloneElementWithValidation check cloneEl element props children s
          = .ok (res, s') →
        res = cloneEl element props children) ∧
    ((∀ t t', check t = .ok t' →
        countFragProp t'.warnings = countFragProp t.warnings ∧
        countFragRef t'.warnings = countFragRef t.warnings) →
      ∀ res s',
        cloneElementWithValidation check cloneEl element props children s
          = .ok (res, s') →
        countFragProp s'.warnings = countFragProp s.warnings ∧
        countFragRef s'.warnings = countFragRef s.warnings) ∧
    ((∀ t t', check t = .ok t' → ∀ i ∈ t.validatedIds, i ∈ t'.validatedIds) →
      ∀ (e : Element) (sid : Nat), Node.elem e ∈ children →
        e.storeId = some sid →
      ∀ res s',
        cloneElementWithValidation check cloneEl element props children s
          = .ok (res, s') →
        sid ∈ s'.validatedIds) ∧
    (∀ (dn n : Option String) (hPT : Bool),
        (cloneEl element props children).typ
          = TypeTag.func dn n hPT (some false) →
      ∀ res s',
        cloneElementWithValidation check cloneEl element props children s
          = .ok (res, s') →
        Diag.getDefaultPropsDeprecated ∈ s'.warnings) := by
  refine ⟨?_, ?_, ?_, ?_⟩
  · intro res s' h
    rcases cloneElementWithValidation_spec check cloneEl element props children s
      with ⟨s3, hvp, hres⟩ | ⟨s3, hvp, hres⟩ <;> cases hres.symm.trans h
    rfl
  · intro hc res s' h
    rcases cloneElementWithValidation_spec check cloneEl element props children s
      with ⟨s3, hvp, hres⟩ | ⟨s3, hvp, hres⟩ <;> cases hres.symm.trans h
    constructor
    · exact (validatePropTypes_count isFragPropD rfl check _ _ _
          (fun t t' ht => (hc t t' ht).1) hvp).trans
        (validateAllChildKeys_count_other isFragPropD
          (by intro c o st; rfl) children _ s)
    · exact (validatePropTypes_count isFragRefD rfl check _ _ _
          (fun t t' ht => (hc t t' ht).2) hvp).trans
        (validateAllChildKeys_count_other isFragRefD
          (by intro c o st; rfl) children _ s)
  · intro hc e sid hmem hst res s' h
    rcases cloneElementWithValidation_spec check cloneEl element props children s
      with ⟨s3, hvp, hres⟩ | ⟨s3, hvp, hres⟩ <;> cases hres.symm.trans h
    exact validatePropTypes_validated_mono check _ _ _ hc hvp sid
      (validateAllChildKeys_marks children _ s e sid hmem hst)
  · intro dn n hPT hty res s' h
    rcases cloneElementWithValidation_spec check cloneEl element props children s
      with ⟨s3, hvp, hres⟩ | ⟨s3, hvp, hres⟩ <;> cases hres.symm.trans h
    exact validatePropTypes_gdp check _ dn n hPT _ _ hty hvp

/-- `okCheck` returns its input state. -/
theorem okCheck_ok (t t' : VState) (h : okCheck t = .ok t') : t' = t :=
  (Except.ok.inj h).symm

/-- C1 witness: a call whose context is already recorded emits nothing;
a concrete one-call run keeps the diagnostic count equal to the number of
recorded contexts. -/
theorem C1_missing_key_dedup_witness :
    (validateExplicitKey eW (TypeTag.str "div") sW1).warnings = sW1.warnings ∧
    (countMissingKey (runKeyCalls [(eW, TypeTag.str "div")] sEmpty).warnings
        = (runKeyCalls [(eW, TypeTag.str "div")] sEmpty).ownerHasKeyUseWarning.length ∧
      (runKeyCalls [(eW, TypeTag.str "div")] sEmpty).ownerHasKeyUseWarning.Nodup) :=
  ⟨C1_missing_key_dedup.1 eW (TypeTag.str "div") sW1
      (List.mem_singleton_self _),
   C1_missing_key_dedup.2 [(eW, TypeTag.str "div")] sEmpty rfl List.nodup_nil⟩

/-- C3 witness: a keyed element is left alone. -/
theorem C3_validateExplicitKey_noop_witness :
    validateExplicitKey eK (TypeTag.str "div") sEmpty = sEmpty :=
  C3_validateExplicitKey_noop eK (TypeTag.str "div") sEmpty
    (Or.inr (Or.inr (by decide)))

/-- C4 witness: an already-set flag survives a key validation, and a
keyless stored element gets its flag set. -/
theorem C4_validated_monotone_witness :
    3 ∈ (validateExplicitKey eW (TypeTag.str "div") sV3).validatedIds ∧
    3 ∈ (validateChildKeys (Node.elem eW) (TypeTag.str "div") sV3).validatedIds ∧
    5 ∈ (validateExplicitKey eW (TypeTag.str "div") sEmpty).validatedIds :=
  ⟨C4_validated_monotone.1 eW (TypeTag.str "div") sV3 3 (by decide),
   C4_validated_monotone.2.1 (Node.elem eW) (TypeTag.str "div") sV3 3 (by decide),
   C4_validated_monotone.2.2.2.2 eW (TypeTag.str "div") sEmpty 5 rfl
     (by decide) rfl⟩

/-- C5 witness: the single-element branch at a concrete element. -/
theorem C5_single_element_child_witness :
    (validateChildKeys (Node.elem eW) (TypeTag.str "div") sEmpty).warnings
        = sEmpty.warnings ∧
    (5 ∈ (validateChildKeys (Node.elem eW) (TypeTag.str "div")
          sEmpty).validatedIds ∧
      validateExplicitKey eW (TypeTag.str "p")
          (validateChildKeys (Node.elem eW) (TypeTag.str "div") sEmpty)
        = validateChildKeys (Node.elem eW) (TypeTag.str "div") sEmpty) :=
  ⟨(C5_single_element_child eW (TypeTag.str "div") (TypeTag.str "p") sEmpty).1,
   (C5_single_element_child eW (TypeTag.str "div") (TypeTag.str "p") sEmpty).2
     5 rfl⟩

/-- C7 witness: the fragment checks at a concrete fragment with keys
`children, title` and an undefined ref. -/
theorem C7_fragment_props_witness :
    ∃ t, (validateFragmentProps fW sEmpty).warnings = sEmpty.warnings ++ t ∧
      countFragProp t ≤ 1 ∧
      (∀ k st, Diag.invalidFragProp k st ∈ t →
          k ∈ fW.props.keys ∧ ¬(k = "children" ∨ k = "key") ∧
          ∃ pre post, fW.props.keys = pre ++ k :: post ∧
            ∀ a ∈ pre, a = "children" ∨ a = "key") ∧
      (∀ k, firstInvalidFragmentProp fW.props.keys = some k →
          ∃ st, Diag.invalidFragProp k st ∈ t) ∧
      ((fW.ref ≠ RefVal.rnull) ↔ (∃ st, Diag.invalidFragRef st ∈ t)) ∧
      ((∀ k ∈ fW.props.keys, k = "children" ∨ k = "key") →
          fW.ref = RefVal.rnull → t = []) :=
  C7_fragment_props fW sEmpty

/-- C8 witness: a concrete invalid-type run (empty plain object as the
type) and a concrete valid run marking a direct element child. -/
theorem C8_createElement_validation_witness :
    some eW = createElW (TypeTag.obj 0) none [Node.elem eW] ∧
    countInvalidType s8'.warnings
      = countInvalidType sEmpty.warnings
        + (if validTypeTag (TypeTag.obj 0) then 0 else 1) ∧
    (∃ rest, invalidTypeInfo (TypeTag.obj 0) none sEmpty
        = missingExportHint ++ rest) ∧
    Diag.invalidType (jsTypeDesc (TypeTag.obj 0))
        (invalidTypeInfo (TypeTag.obj 0) none sEmpty) ∈ s8'.warnings ∧
    countMissingKey s8'.warnings = countMissingKey sEmpty.warnings ∧
    5 ∈ s8v.validatedIds := by
  have H := C8_createElement_validation okCheck createElW (TypeTag.obj 0) none
    [Node.elem eW] sEmpty
  have HV := C8_createElement_validation okCheck createElW (TypeTag.str "div")
    none [Node.elem eW] sEmpty
  exact ⟨H.1 (some eW) s8' rfl,
    H.2.1 (fun t t' h => by rw [okCheck_ok t t' h]) (some eW) s8' rfl,
    H.2.2.1 (Or.inr rfl),
    H.2.2.2.1 (fun t t' h d hd => by rw [okCheck_ok t t' h]; exact hd) rfl
      (some eW) s8' rfl,
    H.2.2.2.2.1 (fun t t' h => by rw [okCheck_ok t t' h]) rfl (some eW) s8' rfl,
    HV.2.2.2.2.2 (fun t t' h i hi => by rw [okCheck_ok t t' h]; exact hi) rfl
      eW 5 (List.mem_singleton_self _) rfl eW rfl (some eW) s8v rfl⟩

/-- C9 witness: a concrete clone run — the clone comes back unchanged, no
fragment diagnostic appears, the direct element child gets marked, and
the clone's unapproved `getDefaultProps` yields its deprecation
diagnostic. -/
theorem C9_cloneElement_validation_witness :
    eGDP = cloneElW eW none [Node.elem eW] ∧
    (countFragProp s9'.warnings = countFragProp sEmpty.warnings ∧
      countFragRef s9'.warnings = countFragRef sEmpty.warnings) ∧
    5 ∈ s9'.validatedIds ∧
    Diag.getDefaultPropsDeprecated ∈ s9'.warnings := by
  have H := C9_cloneElement_validation okCheck cloneElW eW none
    [Node.elem eW] sEmpty
  exact ⟨H.1 eGDP s9' rfl,
    H.2.1 (fun t t' h => by rw [okCheck_ok t t' h]; exact ⟨rfl, rfl⟩)
      eGDP s9' rfl,
    H.2.2.1 (fun t t' h i hi => by rw [okCheck_ok t t' h]; exact hi)
      eW 5 (List.mem_singleton_self _) rfl eGDP s9' rfl,
    H.2.2.2 none none false rfl eGDP s9' rfl⟩

/-- C10 witness: a fragment whose ref is `undefined` (not `null`) gets
the invalid-ref diagnostic. -/
theorem C10_fragment_ref_strict_witness :
    countFragRef (validateFragmentProps fW sEmpty).warnings
      = countFragRef sEmpty.warnings + 1 :=
  (C10_fragment_ref_strict fW sEmpty).2 rfl
